import Mathlib

/-!
Verification of the LoggingKit core components against their
natural-language specification.

The development shallowly embeds the algorithmic core of the repository:

* `maskObject` / `shouldMaskField`  — recursive field masking (src/core/masking.ts)
* `hashString` / `shouldSampleLog` / `createSampler` / `SamplingStats`
    — deterministic sampling (src/core/sampling.ts)
* `getCorrelationId` — correlation-id extraction (src/core/config.ts)
* `parseStackFrame` / `parseError` — stack parsing (src/core/error-parser.ts)
* `WinstonLogger.logWithMeta` / `WinstonLogger.child` — the logger pipeline
    (infra logger factory)

Dynamic JavaScript metadata values are embedded as the tagged union `Value`
(null/undefined, string, number, boolean, sequence, mapping).  JavaScript
numbers appearing in configuration are embedded as rationals; 32-bit
integer wrap-around in the sampling hash is made explicit via `toInt32`.
Side-effecting operations (the single sink dispatch of a log call) are
embedded by returning the sink invocation as data (`Option` of the sink
arguments).
-/

namespace LoggingKit

/-- Tagged union for arbitrary JavaScript metadata values: `vnull` covers
both `null` and `undefined`; numbers are embedded as rationals. -/
inductive Value where
  | vnull : Value
  | vstr (s : String) : Value
  | vnum (q : ℚ) : Value
  | vbool (b : Bool) : Value
  | varr (items : List Value) : Value
  | vobj (entries : List (String × Value)) : Value
deriving Repr

/-- `typeof v === "object" && v !== null` in the source: exactly the
sequence and mapping constructors. -/
def Value.isContainer : Value → Bool
  | .varr _ => true
  | .vobj _ => true
  | _ => false

/-- Scalar values are the non-container ones (null/undefined, string,
number, boolean). -/
def Value.isScalar (v : Value) : Bool := !v.isContainer

/-- Entries of a mapping value (empty for non-mappings). -/
def Value.objEntries : Value → List (String × Value)
  | .vobj entries => entries
  | _ => []

/-- The container shape of a value: mapping keys and sequence lengths with
all scalar leaves erased. -/
inductive Shape where
  | leaf : Shape
  | arr (l : List Shape) : Shape
  | obj (l : List (String × Shape)) : Shape
deriving Repr

mutual

/-- Shape of a value (scalars collapse to `Shape.leaf`). -/
def shapeOf : Value → Shape
  | .vnull => .leaf
  | .vstr _ => .leaf
  | .vnum _ => .leaf
  | .vbool _ => .leaf
  | .varr items => .arr (shapeOfList items)
  | .vobj entries => .obj (shapeOfEntries entries)
termination_by v => sizeOf v

/-- Shapes of a list of values. -/
def shapeOfList : List Value → List Shape
  | [] => []
  | v :: rest => shapeOf v :: shapeOfList rest
termination_by l => sizeOf l

/-- Shapes of mapping entries, keeping keys. -/
def shapeOfEntries : List (String × Value) → List (String × Shape)
  | [] => []
  | (k, v) :: rest => (k, shapeOf v) :: shapeOfEntries rest
termination_by l => sizeOf l

end

/-! ## Masking (src/core/masking.ts) -/

/-- Default sensitive field patterns, from `DEFAULT_MASK_FIELDS`. -/
def DEFAULT_MASK_FIELDS : List String :=
  ["password", "passwd", "secret", "token", "apikey", "api_key", "api-key",
   "authorization", "auth", "bearer", "credential", "private", "ssn",
   "social_security", "credit_card", "creditcard", "card_number",
   "cardnumber", "cvv", "pin", "otp", "access_token", "refresh_token",
   "id_token", "jwt"]

/-- Default mask replacement pattern. -/
def DEFAULT_MASK_PATTERN : String := "[REDACTED]"

/-- `s` contains `pat` as a contiguous substring (JavaScript
`String.prototype.includes`), at the character-list level. -/
def charsContains : List Char → List Char → Bool
  | s, pat =>
    if pat.isPrefixOf s then true
    else
      match s with
      | [] => false
      | _ :: rest => charsContains rest pat

/-- String-level substring containment, JavaScript `a.includes(b)`. -/
def strContains (s pat : String) : Bool :=
  charsContains s.toList pat.toList

/-- JavaScript `toLowerCase`, character by character. -/
def strToLower (s : String) : String :=
  String.mk (s.toList.map Char.toLower)

/-- Checks if a field name should be masked: the lower-cased field name
contains some lower-cased pattern as a substring (`shouldMaskField`). -/
def shouldMaskField (fieldName : String) (maskFields : List String) : Bool :=
  let lowerField := strToLower fieldName
  maskFields.any fun pat => strContains lowerField (strToLower pat)

mutual

/-- Recursively masks sensitive fields in a value tree (`maskObject`).
Beyond the depth cap the remaining subtree is returned unchanged; scalar
values directly under a matched mapping key are replaced by `maskPattern`;
containers are always recursed into, never replaced wholesale. -/
def maskObject (obj : Value) (maskFields : List String) (maskPattern : String)
    (depth : Nat) (maxDepth : Nat) : Value :=
  if depth > maxDepth then obj
  else
    match obj with
    | .vnull => .vnull
    | .vstr s => .vstr s
    | .varr items => .varr (maskList items maskFields maskPattern depth maxDepth)
    | .vobj entries => .vobj (maskEntries entries maskFields maskPattern depth maxDepth)
    | .vnum q => .vnum q
    | .vbool b => .vbool b
termination_by sizeOf obj

/-- Masks each element of a sequence (the `obj.map(...)` branch). -/
def maskList (items : List Value) (maskFields : List String) (maskPattern : String)
    (depth : Nat) (maxDepth : Nat) : List Value :=
  match items with
  | [] => []
  | item :: rest =>
      maskObject item maskFields maskPattern (depth + 1) maxDepth ::
        maskList rest maskFields maskPattern depth maxDepth
termination_by sizeOf items

/-- Masks the entries of a mapping (the `Object.entries(obj)` loop). -/
def maskEntries (entries : List (String × Value)) (maskFields : List String)
    (maskPattern : String) (depth : Nat) (maxDepth : Nat) : List (String × Value) :=
  match entries with
  | [] => []
  | (key, value) :: rest =>
      (key,
        if value.isContainer then
          maskObject value maskFields maskPattern (depth + 1) maxDepth
        else if shouldMaskField key maskFields then .vstr maskPattern
        else value) ::
        maskEntries rest maskFields maskPattern depth maxDepth
termination_by sizeOf entries

end

/-- The masking-relevant slice of the logging configuration
(`Pick<LoggingConfig, "maskEnabled" | "maskFields" | "maskPattern">`). -/
structure MaskConfig where
  maskEnabled : Bool
  maskFields : List String
  maskPattern : String

/-- Creates the masking function from configuration (`createMasker`):
identity when masking is disabled; otherwise `maskObject` with the
configured fields (an empty list falls back to the defaults) and the
configured pattern (the empty string is falsy in JavaScript and falls back
to the default), at the default depth arguments `0` and `10`. -/
def createMasker (config : MaskConfig) : Value → Value :=
  if !config.maskEnabled then fun data => data
  else
    let fields := if config.maskFields.length > 0 then config.maskFields
                  else DEFAULT_MASK_FIELDS
    let pat := if config.maskPattern = "" then DEFAULT_MASK_PATTERN
               else config.maskPattern
    fun data => maskObject data fields pat 0 10

/-- A single-entry wrapper mapping, used to build deeply nested inputs. -/
def wrapKV (k : String) (v : Value) : Value := .vobj [(k, v)]

/-- A mapping nested 12 levels deep whose innermost mapping (reached at
recursion depth 11, beyond the default cap of 10) holds a sensitive
scalar. -/
def deepInput11 : Value :=
  wrapKV "l1" (wrapKV "l2" (wrapKV "l3" (wrapKV "l4" (wrapKV "l5" (wrapKV "l6"
    (wrapKV "l7" (wrapKV "l8" (wrapKV "l9" (wrapKV "l10" (wrapKV "l11"
      (.vobj [("password", .vstr "hunter2")])))))))))))

/-- A mapping nested 15 levels deep whose innermost mapping (reached at
recursion depth 14) holds a sensitive scalar. -/
def deepInput15 : Value :=
  wrapKV "l1" (wrapKV "l2" (wrapKV "l3" (wrapKV "l4" (wrapKV "l5" (wrapKV "l6"
    (wrapKV "l7" (wrapKV "l8" (wrapKV "l9" (wrapKV "l10" (wrapKV "l11"
      (wrapKV "l12" (wrapKV "l13" (wrapKV "l14"
        (.vobj [("password", .vstr "hunter2")]))))))))))))))

/-- A small concrete mapping with a sensitive scalar, a benign scalar and
a nested container, used to witness the entry-level masking behavior. -/
def maskWitnessEntries : List (String × Value) :=
  [("token", .vstr "t"), ("user", .vstr "u"),
   ("nested", .vobj [("password", .vstr "p")])]

/-! ## Sampling (src/core/sampling.ts) -/

/-- The fixed, closed set of log levels. -/
inductive LogLevel where
  | error | warn | info | http | verbose | debug | silly
deriving Repr, DecidableEq, BEq

/-- Log levels that are subject to sampling (`SAMPLED_LEVELS`). -/
def SAMPLED_LEVELS : List LogLevel := [.debug, .verbose, .silly]

/-- Log levels that are never sampled (`ALWAYS_LOG_LEVELS`). -/
def ALWAYS_LOG_LEVELS : List LogLevel := [.error, .warn, .info, .http]

/-- Sampling decision record. The rate is a rational in `[0,1]`. -/
structure SamplingDecision where
  shouldLog : Bool
  wasSampled : Bool
  rate : ℚ
deriving Repr, DecidableEq

/-- The sampling-relevant slice of the logging configuration
(`Pick<LoggingConfig, "samplingEnabled" | "samplingRate">`). -/
structure SamplingConfig where
  samplingEnabled : Bool
  samplingRate : ℚ
deriving Repr

/-- Wrap an integer to the 32-bit signed range, as JavaScript bitwise
operations do (`hash & hash`). -/
def toInt32 (n : ℤ) : ℤ :=
  let m := n % 4294967296
  if m < 2147483648 then m else m - 4294967296

/-- One step of the rolling hash, as written in the source:
`hash = (hash << 5) - hash + char; hash = hash & hash`.  The left shift
operates on the 32-bit truncation of `hash`. -/
def hashStep (h : ℤ) (c : Char) : ℤ :=
  toInt32 (toInt32 (h * 32) - h + (c.toNat : ℤ))

/-- Deterministic message hash (`hashString`): rolling hash over the
characters, 32-bit-wrapped at each step, absolute value at the end. -/
def hashString (s : String) : ℕ :=
  (s.toList.foldl hashStep 0).natAbs

/-- Spec-side form of the rolling hash, following the specification words:
`hash = hash*31 + charCode`, wrapped to 32-bit signed at each step, then
absolute value.  Compared against the source-side `hashString` in the
claim about sampling. -/
def rollingHash (s : String) : ℕ :=
  (s.toList.foldl (fun h c => toInt32 (31 * h + (c.toNat : ℤ))) 0).natAbs

/-- Determines if a log should be sampled out (`shouldSampleLog`). -/
def shouldSampleLog (level : LogLevel) (message : String)
    (config : SamplingConfig) : SamplingDecision :=
  if !config.samplingEnabled then
    { shouldLog := true, wasSampled := false, rate := 1 }
  else if ALWAYS_LOG_LEVELS.contains level then
    { shouldLog := true, wasSampled := false, rate := 1 }
  else if SAMPLED_LEVELS.contains level then
    let rate : ℚ := max 0 (min 1 config.samplingRate)
    let hash := hashString message
    let threshold : ℤ := Int.floor (rate * 1000)
    { shouldLog := decide (((hash : ℤ) % 1000) < threshold),
      wasSampled := true, rate := rate }
  else
    { shouldLog := true, wasSampled := false, rate := 1 }

/-- Creates a sampling filter based on configuration (`createSampler`). -/
def createSampler (config : SamplingConfig) : LogLevel → String → Bool :=
  if !config.samplingEnabled then fun _ _ => true
  else fun level message => (shouldSampleLog level message config).shouldLog

/-- A sampling-enabled configuration with configured rate `1.5`
(the rational `3/2`, given in normalized form). -/
def sampleCfg32 : SamplingConfig :=
  ⟨true, Rat.mk' 3 2 (by decide) (by decide)⟩

/-- A sampling-enabled configuration with configured rate `-0.5`
(the rational `-1/2`, given in normalized form). -/
def sampleCfgNeg : SamplingConfig :=
  ⟨true, Rat.mk' (-1) 2 (by decide) (by decide)⟩

/-- Sampling statistics counters (`SamplingStats`).  The JavaScript class
holds three mutable number fields; state is passed explicitly here. -/
structure SamplingStats where
  total : ℕ
  sampled : ℕ
  dropped : ℕ
deriving Repr, DecidableEq

/-- A freshly constructed `SamplingStats` (all counters zero). -/
def SamplingStats.init : SamplingStats := ⟨0, 0, 0⟩

/-- `record(decision)`: increments `total` always; when the decision was
sampled, increments `sampled`, and additionally `dropped` when the log was
not emitted. -/
def SamplingStats.record (s : SamplingStats) (d : SamplingDecision) : SamplingStats :=
  { total := s.total + 1
    sampled := if d.wasSampled then s.sampled + 1 else s.sampled
    dropped := if d.wasSampled && !d.shouldLog then s.dropped + 1 else s.dropped }

/-- `reset()`: zeroes all counters. -/
def SamplingStats.reset (_ : SamplingStats) : SamplingStats := ⟨0, 0, 0⟩

/-- Derived drop rate: `dropped / sampled`, and `0` when `sampled = 0`. -/
def SamplingStats.dropRate (s : SamplingStats) : ℚ :=
  if s.sampled > 0 then (s.dropped : ℚ) / (s.sampled : ℚ) else 0

/-! ## Correlation ids (src/core/config.ts) -/

/-- A header value is a string or a sequence of strings (absent values are
modelled by `Option` at the lookup). -/
inductive HeaderValue where
  | hstr (s : String) : HeaderValue
  | harr (l : List String) : HeaderValue
deriving Repr, DecidableEq

/-- The fixed correlation header name (`CORRELATION_ID_HEADER`). -/
def CORRELATION_ID_HEADER : String := "x-request-id"

/-- Lower-case hexadecimal digit character for a nibble value. -/
def hexDigitChar (n : ℕ) : Char :=
  if n < 10 then Char.ofNat (48 + n) else Char.ofNat (87 + n)

/-- Two lower-case hexadecimal digits of a byte. -/
def byteHex (b : ℕ) : List Char :=
  [hexDigitChar (b / 16), hexDigitChar (b % 16)]

/-- Modelled from the spec: the third-party `uuid` library's `v4`
generator is not part of the repository sources.  Per the spec, it
produces a random version-4 UUID: sixteen random bytes with the version
nibble of byte 6 forced to `4` (`(b & 0x0f) | 0x40`, written here as
`b % 16 + 64`) and the two variant bits of byte 8 forced to `10`
(`(b & 0x3f) | 0x80`, written here as `b % 64 + 128`), rendered as
lower-case hex in the 8-4-4-4-12 grouping. -/
def uuidv4 (rnd : Fin 16 → Fin 256) : String :=
  String.mk
    (byteHex (rnd 0) ++ byteHex (rnd 1) ++ byteHex (rnd 2) ++ byteHex (rnd 3) ++
     '-' :: (byteHex (rnd 4) ++ byteHex (rnd 5) ++
     '-' :: (byteHex ((rnd 6 : ℕ) % 16 + 64) ++ byteHex (rnd 7) ++
     '-' :: (byteHex ((rnd 8 : ℕ) % 64 + 128) ++ byteHex (rnd 9) ++
     '-' :: (byteHex (rnd 10) ++ byteHex (rnd 11) ++ byteHex (rnd 12) ++
             byteHex (rnd 13) ++ byteHex (rnd 14) ++ byteHex (rnd 15))))))

/-- A lower-case hexadecimal digit, character class `[0-9a-f]`. -/
def isLowerHexDigit (c : Char) : Bool :=
  (decide ('0' ≤ c) && decide (c ≤ '9')) || (decide ('a' ≤ c) && decide (c ≤ 'f'))

/-- Character class at position `i` of the version-4 UUID pattern
`[0-9a-f]\x7b8\x7d-[0-9a-f]\x7b4\x7d-4[0-9a-f]\x7b3\x7d-[89ab][0-9a-f]\x7b3\x7d-[0-9a-f]\x7b12\x7d`. -/
def v4Class (i : ℕ) (c : Char) : Bool :=
  if i = 8 ∨ i = 13 ∨ i = 18 ∨ i = 23 then c = '-'
  else if i = 14 then c = '4'
  else if i = 19 then c = '8' ∨ c = '9' ∨ c = 'a' ∨ c = 'b'
  else isLowerHexDigit c

/-- Decides whether a string matches the version-4 UUID pattern. -/
def matchesV4Pattern (s : String) : Bool :=
  s.toList.length = 36 && s.toList.enum.all fun p => v4Class p.1 p.2

/-- The header lookup of `getCorrelationId`:
`headers[CORRELATION_ID_HEADER] ?? headers["X-Request-Id"]`. -/
def lookupHeaderValue (headers : String → Option HeaderValue) : Option HeaderValue :=
  match headers CORRELATION_ID_HEADER with
  | some v => some v
  | none => headers "X-Request-Id"

/-- Extracts the correlation id from headers or generates a new one
(`getCorrelationId`).  The randomness consumed by the fallback generator
is passed explicitly as `rnd`. -/
def getCorrelationId (headers : String → Option HeaderValue)
    (rnd : Fin 16 → Fin 256) : String :=
  match lookupHeaderValue headers with
  | some (.hstr s) => if s.length > 0 then s else uuidv4 rnd
  | some (.harr (x :: _)) => if x.length > 0 then x else uuidv4 rnd
  | some (.harr []) => uuidv4 rnd
  | none => uuidv4 rnd

/-! ## The logger pipeline (infra Winston logger factory) -/

/-- The configuration slice consumed by the logger pipeline through
`createMasker` and `createSampler`. -/
structure LoggingConfig where
  maskEnabled : Bool
  maskFields : List String
  maskPattern : String
  samplingEnabled : Bool
  samplingRate : ℚ

/-- The mask-relevant slice of a full logging configuration. -/
def LoggingConfig.maskConfig (c : LoggingConfig) : MaskConfig :=
  ⟨c.maskEnabled, c.maskFields, c.maskPattern⟩

/-- The sampling-relevant slice of a full logging configuration. -/
def LoggingConfig.samplingConfig (c : LoggingConfig) : SamplingConfig :=
  ⟨c.samplingEnabled, c.samplingRate⟩

/-- Logger metadata: a JavaScript object, embedded as an ordered list of
key-value entries (JavaScript object keys are unique and ordered). -/
abbrev LoggerMetadata := List (String × Value)

/-- JavaScript object spread `\x7b ...a, ...b \x7d`: keys of `a` keep their
position, with the value overridden by `b` on collision; keys only in `b`
are appended in the order of `b`. -/
def mergeSpread (a b : LoggerMetadata) : LoggerMetadata :=
  (a.map fun p =>
    match List.lookup p.1 b with
    | some w => (p.1, w)
    | none => p) ++
  b.filter fun p => (List.lookup p.1 a).isNone

/-- The state of a `WinstonLogger` instance: its stored metadata snapshot
and its configuration (the wrapped Winston sink is external and opaque;
`child` passes it through unchanged). -/
structure WinstonLogger where
  metadata : LoggerMetadata
  config : LoggingConfig

/-- One sink invocation: the arguments handed to
`winstonLogger.log(level, message, maskedMeta)`. -/
structure SinkCall where
  level : LogLevel
  message : String
  maskedMeta : Value

/-- The per-call pipeline (`logWithMeta`): ask the sampler first and stop
with no sink call when sampled out; otherwise merge the call-site metadata
over the stored metadata, mask the merge, and hand the record to the sink.
The (single, final) sink side effect is returned as data. -/
def WinstonLogger.logWithMeta (L : WinstonLogger) (level : LogLevel)
    (message : String) (meta : LoggerMetadata) : Option SinkCall :=
  if !createSampler L.config.samplingConfig level message then none
  else some ⟨level, message,
    createMasker L.config.maskConfig (.vobj (mergeSpread L.metadata meta))⟩

/-- `child(meta)`: a new logger whose stored metadata is the spread-merge
of the parent's metadata with `meta` (child keys win), sharing the same
sink and configuration. -/
def WinstonLogger.child (L : WinstonLogger) (meta : LoggerMetadata) : WinstonLogger :=
  ⟨mergeSpread L.metadata meta, L.config⟩

/-- A concrete configuration for witnesses: masking on with default
patterns, sampling off. -/
def pipelineCfg : LoggingConfig := ⟨true, [], "[REDACTED]", false, 1⟩

/-- A concrete parent logger for witnesses. -/
def parentLogger : WinstonLogger := ⟨[("app", .vstr "svc")], pipelineCfg⟩

/-- Headers carrying a client-supplied correlation id string. -/
def strHeaders : String → Option HeaderValue :=
  fun k => if k = CORRELATION_ID_HEADER then some (.hstr "abc") else none

/-- Headers whose correlation header is a non-empty sequence with an empty
first element. -/
def emptyFirstHeaders : String → Option HeaderValue :=
  fun k => if k = CORRELATION_ID_HEADER then some (.harr [""]) else none

/-! ## Error stack parsing (src/core/error-parser.ts)

The source matches each frame line against a fixed sequence of anchored
regular expressions.  They are embedded as explicit parsers: the trailing
`:(\d+):(\d+)` and `:(\d+)` groups are read off the reversed character
list (the greedy leading `(.+)` pushes the split to the rightmost feasible
colons), and the lazy `(.+?)\s+\(` prefix of the parenthesised patterns is
found by scanning for the leftmost whitespace-run followed by `(` whose
tail completes the pattern. -/

/-- One parsed stack frame. -/
structure ParsedStackFrame where
  functionName : String
  fileName : String
  lineNumber : Option ℕ
  columnNumber : Option ℕ
  isNative : Bool
  isNodeModules : Bool
  raw : String
deriving Repr, DecidableEq

/-- Decimal digit character class `\d`. -/
def isDigitChar (c : Char) : Bool := decide ('0' ≤ c) && decide (c ≤ '9')

/-- Whitespace character class `\s`. -/
def isWsChar (c : Char) : Bool := c.isWhitespace

/-- JavaScript `trim`: removes leading and trailing whitespace. -/
def strTrim (s : String) : String :=
  String.mk (((s.toList.dropWhile isWsChar).reverse.dropWhile isWsChar).reverse)

/-- `s` starts with `pat` (JavaScript `startsWith`). -/
def strStartsWith (s pat : String) : Bool :=
  pat.toList.isPrefixOf s.toList

/-- Drops the first `n` characters (JavaScript `slice(n)`). -/
def strDrop (s : String) (n : ℕ) : String :=
  String.mk (s.toList.drop n)

/-- Splits a character list at newline characters (JavaScript
`split("\n")` semantics: no newline gives one piece, a trailing newline
gives a trailing empty piece). -/
def splitLinesChars : List Char → List (List Char)
  | [] => [[]]
  | '\n' :: rest => [] :: splitLinesChars rest
  | c :: rest =>
    match splitLinesChars rest with
    | [] => [[c]]
    | line :: lines => (c :: line) :: lines

/-- The lines of a stack text, `stack.split("\n")`. -/
def splitLines (s : String) : List String :=
  (splitLinesChars s.toList).map String.mk

/-- Decimal value of a digit run (JavaScript `parseInt(_, 10)` on the
captured `\d+` groups). -/
def digitsToNat (l : List Char) : ℕ :=
  l.foldl (fun n c => n * 10 + (c.toNat - 48)) 0

/-- Splits the maximal leading digit run (applied to reversed lists to
read trailing `\d+` groups). -/
def splitDigitRun (l : List Char) : List Char × List Char :=
  (l.takeWhile isDigitChar, l.dropWhile isDigitChar)

/-- Matches `^(.+):(\d+):(\d+)$`: file, line and column, where the two
digit groups are the trailing colon-separated runs. -/
def parseFileLineCol (content : List Char) : Option (List Char × ℕ × ℕ) :=
  let (colD, r1) := splitDigitRun content.reverse
  match colD, r1 with
  | _ :: _, ':' :: r2 =>
    let (lineD, r3) := splitDigitRun r2
    (match lineD, r3 with
     | _ :: _, ':' :: r4 =>
       if r4.isEmpty then none
       else some (r4.reverse, digitsToNat lineD.reverse, digitsToNat colD.reverse)
     | _, _ => none)
  | _, _ => none

/-- Matches `^(.+):(\d+)$`: file and line. -/
def parseFileLine (content : List Char) : Option (List Char × ℕ) :=
  let (lineD, r1) := splitDigitRun content.reverse
  match lineD, r1 with
  | _ :: _, ':' :: r2 =>
    if r2.isEmpty then none else some (r2.reverse, digitsToNat lineD.reverse)
  | _, _ => none

/-- Lazy split for `^(.+?)\s+\( ... $`: scans left to right for the first
nonempty prefix followed by a whitespace run and `(` whose tail satisfies
`inner`; `nameRev` accumulates the reversed prefix consumed so far. -/
def tryNameSplits {α : Type} (inner : List Char → Option α) :
    List Char → List Char → Option (List Char × α)
  | _, [] => none
  | nameRev, c :: rest =>
    let attempt : Option (List Char × α) :=
      if !nameRev.isEmpty && isWsChar c then
        match (c :: rest).dropWhile isWsChar with
        | '(' :: tail =>
          (match inner tail with
           | some a => some (nameRev.reverse, a)
           | none => none)
        | _ => none
      else none
    match attempt with
    | some result => some result
    | none => tryNameSplits inner (c :: nameRev) rest

/-- Tail parser for `\((.+):(\d+):(\d+)\)$`. -/
def innerFileLineCol (tail : List Char) : Option (List Char × ℕ × ℕ) :=
  match tail.reverse with
  | ')' :: innerRev => parseFileLineCol innerRev.reverse
  | _ => none

/-- Tail parser for `\((.+):(\d+)\)$`. -/
def innerFileLine (tail : List Char) : Option (List Char × ℕ) :=
  match tail.reverse with
  | ')' :: innerRev => parseFileLine innerRev.reverse
  | _ => none

/-- The characters of the literal `(native)` marker. -/
def nativeMark : List Char := "(native)".toList

/-- Removes the first occurrence of `\s*\(native\)` (JavaScript
`content.replace(/\s*\(native\)/, "")`). -/
def stripNativeMark : List Char → List Char
  | [] => []
  | c :: rest =>
    if nativeMark.isPrefixOf (c :: rest) then (c :: rest).drop 8
    else if isWsChar c then
      let t := (c :: rest).dropWhile isWsChar
      if nativeMark.isPrefixOf t then t.drop 8
      else c :: stripNativeMark rest
    else c :: stripNativeMark rest

/-- Builds the frame for the content after the `at ` marker, trying the
patterns in source order: native marker, `name (file:line:col)`,
`name (file:line)`, `file:line:col`, `file:line`, and the never-failing
fallback. -/
def frameFromContent (raw content : String) : ParsedStackFrame :=
  if strContains content "(native)" || content = "native" then
    let fn := strTrim (String.mk (stripNativeMark content.toList))
    { functionName := if fn = "" then "<native>" else fn
      fileName := "native", lineNumber := none, columnNumber := none
      isNative := true, isNodeModules := false, raw := raw }
  else
    match tryNameSplits innerFileLineCol [] content.toList with
    | some (name, file, line, col) =>
      let fileName := String.mk file
      { functionName := strTrim (String.mk name), fileName := fileName
        lineNumber := some line, columnNumber := some col
        isNative := false, isNodeModules := strContains fileName "node_modules"
        raw := raw }
    | none =>
    match tryNameSplits innerFileLine [] content.toList with
    | some (name, file, line) =>
      let fileName := String.mk file
      { functionName := strTrim (String.mk name), fileName := fileName
        lineNumber := some line, columnNumber := none
        isNative := false, isNodeModules := strContains fileName "node_modules"
        raw := raw }
    | none =>
    match parseFileLineCol content.toList with
    | some (file, line, col) =>
      let fileName := String.mk file
      { functionName := "<anonymous>", fileName := fileName
        lineNumber := some line, columnNumber := some col
        isNative := false, isNodeModules := strContains fileName "node_modules"
        raw := raw }
    | none =>
    match parseFileLine content.toList with
    | some (file, line) =>
      let fileName := String.mk file
      { functionName := "<anonymous>", fileName := fileName
        lineNumber := some line, columnNumber := none
        isNative := false, isNodeModules := strContains fileName "node_modules"
        raw := raw }
    | none =>
      { functionName := content, fileName := "unknown"
        lineNumber := none, columnNumber := none
        isNative := false, isNodeModules := false, raw := raw }

/-- Parses a single stack line (`parseStackFrame`): the trimmed line must
begin with the frame marker `at ` (otherwise `none`); the remainder is
parsed by `frameFromContent`, which never fails. -/
def parseStackFrame (line : String) : Option ParsedStackFrame :=
  let trimmed := strTrim line
  if !strStartsWith trimmed "at " then none
  else some (frameFromContent trimmed (strDrop trimmed 3))

/-- A JavaScript `Error`: name, message, optional stack text and an
optional error cause. -/
inductive JSError where
  | mk (name : String) (message : String) (stack : Option String)
       (cause : Option JSError) : JSError

/-- The frame-collecting loop of `parseError`: stop when `count` reaches
`maxLines`; lines the frame parser rejects are skipped without touching
`count`. -/
def collectFrames (maxLines : ℕ) : List String → ℕ → List ParsedStackFrame
  | [], _ => []
  | line :: rest, count =>
    if count ≥ maxLines then []
    else
      match parseStackFrame line with
      | some frame => frame :: collectFrames maxLines rest (count + 1)
      | none => collectFrames maxLines rest count

/-- A structured parsed error. -/
inductive ParsedError where
  | mk (name : String) (message : String) (stack : List ParsedStackFrame)
       (cause : Option ParsedError) : ParsedError

/-- The frame list of a parsed error. -/
def ParsedError.stack : ParsedError → List ParsedStackFrame
  | .mk _ _ s _ => s

/-- Parses an error into structured data (`parseError`): split the stack
text on newlines, discard the first line, collect up to `maxLines` frames,
and recursively parse the cause chain. -/
def parseError : JSError → ℕ → ParsedError
  | .mk name message stackOpt cause, maxLines =>
    let stack :=
      match stackOpt with
      | some s => collectFrames maxLines ((splitLines s).drop 1) 0
      | none => []
    .mk name message stack
      (match cause with
       | some c => some (parseError c maxLines)
       | none => none)

/-! ## Unfolding lemmas for the masking recursion -/

theorem maskObject_of_depth_gt (v : Value) (mf : List String) (mp : String)
    (d md : ℕ) (h : md < d) : maskObject v mf mp d md = v := by
  rw [maskObject.eq_def, if_pos h]

theorem maskObject_vnull (mf : List String) (mp : String) (d md : ℕ) (h : d ≤ md) :
    maskObject .vnull mf mp d md = .vnull := by
  rw [maskObject.eq_def, if_neg (Nat.not_lt.mpr h)]

theorem maskObject_vstr (s : String) (mf : List String) (mp : String) (d md : ℕ)
    (h : d ≤ md) : maskObject (.vstr s) mf mp d md = .vstr s := by
  rw [maskObject.eq_def, if_neg (Nat.not_lt.mpr h)]

theorem maskObject_vnum (q : ℚ) (mf : List String) (mp : String) (d md : ℕ)
    (h : d ≤ md) : maskObject (.vnum q) mf mp d md = .vnum q := by
  rw [maskObject.eq_def, if_neg (Nat.not_lt.mpr h)]

theorem maskObject_vbool (b : Bool) (mf : List String) (mp : String) (d md : ℕ)
    (h : d ≤ md) : maskObject (.vbool b) mf mp d md = .vbool b := by
  rw [maskObject.eq_def, if_neg (Nat.not_lt.mpr h)]

theorem maskObject_varr (items : List Value) (mf : List String) (mp : String)
    (d md : ℕ) (h : d ≤ md) :
    maskObject (.varr items) mf mp d md = .varr (maskList items mf mp d md) := by
  rw [maskObject.eq_def, if_neg (Nat.not_lt.mpr h)]

theorem maskObject_vobj (entries : List (String × Value)) (mf : List String)
    (mp : String) (d md : ℕ) (h : d ≤ md) :
    maskObject (.vobj entries) mf mp d md = .vobj (maskEntries entries mf mp d md) := by
  rw [maskObject.eq_def, if_neg (Nat.not_lt.mpr h)]

theorem maskObject_isContainer (v : Value) (mf : List String) (mp : String)
    (d md : ℕ) : (maskObject v mf mp d md).isContainer = v.isContainer := by
  by_cases h : d > md
  · rw [maskObject_of_depth_gt v mf mp d md h]
  · have hle : d ≤ md := Nat.le_of_not_lt h
    cases v with
    | vnull => rw [maskObject_vnull mf mp d md hle]
    | vstr s => rw [maskObject_vstr s mf mp d md hle]
    | vnum q => rw [maskObject_vnum q mf mp d md hle]
    | vbool b => rw [maskObject_vbool b mf mp d md hle]
    | varr items => rw [maskObject_varr items mf mp d md hle]; rfl
    | vobj entries => rw [maskObject_vobj entries mf mp d md hle]; rfl

/-! ## Masking preserves the container shape -/

theorem shapeOf_of_not_container (v : Value) (h : v.isContainer = false) :
    shapeOf v = .leaf := by
  cases v with
  | varr items => simp [Value.isContainer] at h
  | vobj entries => simp [Value.isContainer] at h
  | vnull => rw [shapeOf]
  | vstr s => rw [shapeOf]
  | vnum q => rw [shapeOf]
  | vbool b => rw [shapeOf]

mutual

theorem maskObject_shape (v : Value) (mf : List String) (mp : String) (d md : ℕ) :
    shapeOf (maskObject v mf mp d md) = shapeOf v := by
  by_cases h : d > md
  · rw [maskObject_of_depth_gt v mf mp d md h]
  · have hle : d ≤ md := Nat.le_of_not_lt h
    cases v with
    | vnull => rw [maskObject_vnull mf mp d md hle]
    | vstr s => rw [maskObject_vstr s mf mp d md hle]
    | vnum q => rw [maskObject_vnum q mf mp d md hle]
    | vbool b => rw [maskObject_vbool b mf mp d md hle]
    | varr items =>
        rw [maskObject_varr items mf mp d md hle, shapeOf, shapeOf,
            maskList_shape items mf mp d md]
    | vobj entries =>
        rw [maskObject_vobj entries mf mp d md hle, shapeOf, shapeOf,
            maskEntries_shape entries mf mp d md]
termination_by sizeOf v

theorem maskList_shape (items : List Value) (mf : List String) (mp : String)
    (d md : ℕ) : shapeOfList (maskList items mf mp d md) = shapeOfList items := by
  cases items with
  | nil => rw [maskList]
  | cons item rest =>
      rw [maskList, shapeOfList, shapeOfList,
          maskObject_shape item mf mp (d + 1) md, maskList_shape rest mf mp d md]
termination_by sizeOf items

theorem maskEntries_shape (entries : List (String × Value)) (mf : List String)
    (mp : String) (d md : ℕ) :
    shapeOfEntries (maskEntries entries mf mp d md) = shapeOfEntries entries := by
  cases entries with
  | nil => rw [maskEntries]
  | cons kv rest =>
      obtain ⟨k, v⟩ := kv
      rw [maskEntries, shapeOfEntries, shapeOfEntries,
          maskEntries_shape rest mf mp d md]
      by_cases hc : v.isContainer
      · rw [if_pos hc, maskObject_shape v mf mp (d + 1) md]
      · rw [if_neg hc]
        have hv : shapeOf v = .leaf :=
          shapeOf_of_not_container v (Bool.eq_false_iff.mpr hc)
        by_cases hm : shouldMaskField k mf
        · rw [if_pos hm, hv, shapeOf]
        · rw [if_neg hm]
termination_by sizeOf entries

end

/-! ## Masking is idempotent -/

mutual

theorem maskObject_idem (v : Value) (mf : List String) (mp : String) (d md : ℕ) :
    maskObject (maskObject v mf mp d md) mf mp d md = maskObject v mf mp d md := by
  by_cases h : d > md
  · rw [maskObject_of_depth_gt v mf mp d md h, maskObject_of_depth_gt v mf mp d md h]
  · have hle : d ≤ md := Nat.le_of_not_lt h
    cases v with
    | vnull => rw [maskObject_vnull mf mp d md hle, maskObject_vnull mf mp d md hle]
    | vstr s => rw [maskObject_vstr s mf mp d md hle, maskObject_vstr s mf mp d md hle]
    | vnum q => rw [maskObject_vnum q mf mp d md hle, maskObject_vnum q mf mp d md hle]
    | vbool b => rw [maskObject_vbool b mf mp d md hle, maskObject_vbool b mf mp d md hle]
    | varr items =>
        rw [maskObject_varr items mf mp d md hle,
            maskObject_varr (maskList items mf mp d md) mf mp d md hle,
            maskList_idem items mf mp d md]
    | vobj entries =>
        rw [maskObject_vobj entries mf mp d md hle,
            maskObject_vobj (maskEntries entries mf mp d md) mf mp d md hle,
            maskEntries_idem entries mf mp d md]
termination_by sizeOf v

theorem maskList_idem (items : List Value) (mf : List String) (mp : String)
    (d md : ℕ) :
    maskList (maskList items mf mp d md) mf mp d md = maskList items mf mp d md := by
  cases items with
  | nil => simp only [maskList]
  | cons item rest =>
      rw [maskList, maskList, maskObject_idem item mf mp (d + 1) md,
          maskList_idem rest mf mp d md]
termination_by sizeOf items

theorem maskEntries_idem (entries : List (String × Value)) (mf : List String)
    (mp : String) (d md : ℕ) :
    maskEntries (maskEntries entries mf mp d md) mf mp d md =
      maskEntries entries mf mp d md := by
  cases entries with
  | nil => simp only [maskEntries]
  | cons kv rest =>
      obtain ⟨k, v⟩ := kv
      rw [maskEntries, maskEntries, maskEntries_idem rest mf mp d md]
      by_cases hc : v.isContainer
      · rw [if_pos hc, if_pos (maskObject_isContainer v mf mp (d + 1) md ▸ hc),
            maskObject_idem v mf mp (d + 1) md]
      · rw [if_neg hc]
        by_cases hm : shouldMaskField k mf
        · rw [if_pos hm, if_neg (by simp [Value.isContainer]), if_pos hm]
        · rw [if_neg hm, if_neg hc, if_neg hm]
termination_by sizeOf entries

end

/-! ## Entry-level characterization of object masking -/

theorem maskEntries_length (entries : List (String × Value)) (mf : List String)
    (mp : String) (d md : ℕ) :
    (maskEntries entries mf mp d md).length = entries.length := by
  induction entries with
  | nil => rw [maskEntries]
  | cons kv rest ih =>
      obtain ⟨k, v⟩ := kv
      rw [maskEntries, List.length_cons, List.length_cons, ih]

theorem maskEntries_getElem (mf : List String) (mp : String) (d md : ℕ) :
    ∀ (entries : List (String × Value)) (i : ℕ) (k : String) (v : Value),
      entries[i]? = some (k, v) →
      (maskEntries entries mf mp d md)[i]? =
        some (k, if v.isContainer then maskObject v mf mp (d + 1) md
                 else if shouldMaskField k mf then .vstr mp else v) := by
  intro entries
  induction entries with
  | nil => intro i k v h; simp at h
  | cons kv rest ih =>
      intro i k v h
      obtain ⟨k0, v0⟩ := kv
      cases i with
      | zero =>
          have hk : k0 = k ∧ v0 = v := by simpa using h
          obtain ⟨rfl, rfl⟩ := hk
          rw [maskEntries, List.getElem?_cons_zero]
      | succ j =>
          rw [List.getElem?_cons_succ] at h
          rw [maskEntries, List.getElem?_cons_succ]
          exact ih j k v h

/-- Claim C3, counterexample to the unqualified statement: in a tree of
nested mappings whose sensitive scalar leaf sits below the recursion depth
cap, `maskObject` leaves the leaf unchanged even though its key `password`
matches a field pattern and the value is a scalar.  So a scalar directly
under a matching key is not always replaced. -/
theorem claim_C3_counterexample :
    shouldMaskField "password" ["password"] = true ∧
    (Value.vstr "hunter2").isScalar = true ∧
    maskObject deepInput11 ["password"] "[REDACTED]" 0 10 = deepInput11 := by
  refine ⟨by decide, by decide, ?_⟩
  simp [deepInput11, wrapKV, maskObject, maskEntries, Value.isContainer]

/-- Claim C3 (amended with the depth qualifier): masking preserves the
container shape of every input tree (same mapping keys, same sequence
lengths, containers never replaced wholesale); and for a mapping processed
within the recursion depth cap, the entry at every position keeps its key,
a scalar value is replaced by the replacement string exactly when the key
matches a field pattern and is kept unchanged otherwise, and a container
value is recursed into. -/
theorem claim_C3_mask_shape_and_scalar_leaves
    (v : Value) (mf : List String) (mp : String)
    (entries : List (String × Value)) (d md : ℕ) (hd : d ≤ md)
    (i : ℕ) (k : String) (w : Value) (hent : entries[i]? = some (k, w)) :
    shapeOf (maskObject v mf mp 0 10) = shapeOf v ∧
    (maskObject (.vobj entries) mf mp d md).objEntries[i]? =
      some (k, if w.isScalar then
                 (if shouldMaskField k mf then Value.vstr mp else w)
               else maskObject w mf mp (d + 1) md) := by
  refine ⟨maskObject_shape v mf mp 0 10, ?_⟩
  rw [maskObject_vobj entries mf mp d md hd]
  simp only [Value.objEntries]
  rw [maskEntries_getElem mf mp d md entries i k w hent]
  by_cases hc : w.isContainer = true
  · simp [Value.isScalar, hc]
  · simp [Value.isScalar, Bool.eq_false_iff.mpr hc]

/-- Claim C3 witness: the amended statement applied to a concrete mapping
holding a sensitive scalar, a benign scalar and a nested container. -/
theorem claim_C3_witness :
    (0 : ℕ) ≤ 10 ∧ maskWitnessEntries[0]? = some ("token", Value.vstr "t") ∧
    (shapeOf (maskObject (.vstr "x") ["token"] "[R]" 0 10) = shapeOf (.vstr "x") ∧
     (maskObject (.vobj maskWitnessEntries) ["token"] "[R]" 0 10).objEntries[0]? =
       some ("token",
         if (Value.vstr "t").isScalar then
           (if shouldMaskField "token" ["token"] then Value.vstr "[R]"
            else Value.vstr "t")
         else maskObject (Value.vstr "t") ["token"] "[R]" 1 10)) :=
  ⟨by decide, by rfl, claim_C3_mask_shape_and_scalar_leaves (.vstr "x") ["token"]
    "[R]" maskWitnessEntries 0 10 (by decide) 0 "token" (.vstr "t") (by rfl)⟩

/-- Claim C4: masking is idempotent at every depth: applying `maskObject`
twice with the same patterns, replacement and depth arguments equals
applying it once. -/
theorem claim_C4_mask_idempotent (v : Value) (mf : List String) (mp : String)
    (d md : ℕ) :
    maskObject (maskObject v mf mp d md) mf mp d md = maskObject v mf mp d md :=
  maskObject_idem v mf mp d md

/-- Claim C8: beyond the depth cap `maskObject` returns the remaining
subtree unchanged (and, the embedding being total, never raises); in
particular a mapping nested 15 levels deep is returned with the levels
beyond the cap identical to the input — here the whole tree is unchanged
because its only sensitive leaf sits below the cap. -/
theorem claim_C8_depth_cap :
    (∀ (v : Value) (mf : List String) (mp : String) (d md : ℕ), md < d →
        maskObject v mf mp d md = v) ∧
    maskObject deepInput15 ["password"] "[REDACTED]" 0 10 = deepInput15 := by
  refine ⟨fun v mf mp d md h => maskObject_of_depth_gt v mf mp d md h, ?_⟩
  simp [deepInput15, wrapKV, maskObject, maskEntries, Value.isContainer]

/-- Claim C8 witness: the depth-cap branch applied at a concrete subtree
and depth 11 with the default cap 10. -/
theorem claim_C8_witness :
    (10 : ℕ) < 11 ∧
    maskObject (.vobj [("password", .vstr "x")]) ["password"] "[R]" 11 10 =
      .vobj [("password", .vstr "x")] :=
  ⟨by decide, claim_C8_depth_cap.1 (.vobj [("password", .vstr "x")])
    ["password"] "[R]" 11 10 (by decide)⟩

/-! ## Sampling lemmas and claims -/

theorem toInt32_congr {x y : ℤ} (h : x % 4294967296 = y % 4294967296) :
    toInt32 x = toInt32 y := by
  unfold toInt32
  rw [h]

theorem toInt32_add_cancel (x y : ℤ) :
    toInt32 (toInt32 x + y) = toInt32 (x + y) := by
  apply toInt32_congr
  unfold toInt32
  by_cases h : x % 4294967296 < 2147483648
  · rw [if_pos h]; omega
  · rw [if_neg h]; omega

theorem hashStep_eq (h : ℤ) (c : Char) :
    hashStep h c = toInt32 (31 * h + (c.toNat : ℤ)) := by
  unfold hashStep
  rw [show toInt32 (h * 32) - h + (c.toNat : ℤ) =
      toInt32 (h * 32) + (-h + (c.toNat : ℤ)) by ring, toInt32_add_cancel]
  exact congrArg toInt32 (by ring)

theorem hashString_eq_rollingHash (s : String) : hashString s = rollingHash s := by
  unfold hashString rollingHash
  have hf : hashStep = fun (h : ℤ) (c : Char) => toInt32 (31 * h + (c.toNat : ℤ)) :=
    funext fun h => funext fun c => hashStep_eq h c
  rw [hf]

theorem clamp_eq_one {r : ℚ} (h : 1 ≤ r) : max 0 (min 1 r) = 1 := by
  rw [min_eq_left h, max_eq_right zero_le_one]

theorem clamp_eq_zero {r : ℚ} (h : r ≤ 0) : max 0 (min 1 r) = 0 := by
  rw [min_eq_right (le_trans h zero_le_one), max_eq_left h]

/-- Claim C2: for a sampling-enabled configuration and a sampled level
(`debug`, `verbose`, `silly`), `shouldSampleLog` clamps the configured
rate to `[0,1]`, computes the 32-bit rolling hash of the message
(`hash*31 + charCode`, wrapped to 32-bit signed at each step, absolute
value at the end), and logs exactly when `hash mod 1000` is strictly
below `floor(rate*1000)`; a clamped rate of `1` logs every message and a
clamped rate of `0` logs none. -/
theorem claim_C2_sampled_levels (config : SamplingConfig) (message : String)
    (level : LogLevel) (hen : config.samplingEnabled = true)
    (hlvl : level ∈ SAMPLED_LEVELS) :
    shouldSampleLog level message config =
      { shouldLog := decide (((rollingHash message : ℤ) % 1000) <
          Int.floor (max 0 (min 1 config.samplingRate) * 1000)),
        wasSampled := true,
        rate := max 0 (min 1 config.samplingRate) } ∧
    (1 ≤ config.samplingRate →
      (shouldSampleLog level message config).shouldLog = true) ∧
    (config.samplingRate ≤ 0 →
      (shouldSampleLog level message config).shouldLog = false) := by
  have hal : ALWAYS_LOG_LEVELS.contains level = false := by
    fin_cases hlvl <;> decide
  have hsl : SAMPLED_LEVELS.contains level = true := by
    fin_cases hlvl <;> decide
  have hmain : shouldSampleLog level message config =
      { shouldLog := decide (((rollingHash message : ℤ) % 1000) <
          Int.floor (max 0 (min 1 config.samplingRate) * 1000)),
        wasSampled := true,
        rate := max 0 (min 1 config.samplingRate) } := by
    unfold shouldSampleLog
    rw [hen, hal, hsl]
    simp only [Bool.not_true, Bool.false_eq_true, if_false, if_true,
      hashString_eq_rollingHash]
  refine ⟨hmain, ?_, ?_⟩
  · intro h1
    rw [hmain]
    have : Int.floor (max 0 (min 1 config.samplingRate) * 1000) = 1000 := by
      rw [clamp_eq_one h1, one_mul]
      exact_mod_cast Int.floor_intCast 1000
    rw [this]
    simp only [decide_eq_true_eq]
    exact Int.emod_lt_of_pos _ (by norm_num)
  · intro h0
    rw [hmain]
    have : Int.floor (max 0 (min 1 config.samplingRate) * 1000) = 0 := by
      rw [clamp_eq_zero h0, zero_mul, Int.floor_zero]
    rw [this]
    simp only [decide_eq_false_iff_not, not_lt]
    exact Int.emod_nonneg _ (by norm_num)

/-- Claim C2 witness: rate `1.5` (clamped to `1`) logs a concrete message
at level `debug`; rate `-0.5` (clamped to `0`) drops it. -/
theorem claim_C2_witness :
    sampleCfg32.samplingEnabled = true ∧ LogLevel.debug ∈ SAMPLED_LEVELS ∧
    1 ≤ sampleCfg32.samplingRate ∧
    (shouldSampleLog .debug "request served" sampleCfg32).shouldLog = true :=
  ⟨rfl, by simp [SAMPLED_LEVELS], by decide,
    (claim_C2_sampled_levels sampleCfg32 "request served" .debug rfl
      (by simp [SAMPLED_LEVELS])).2.1 (by decide)⟩

/-- Claim C6: with sampling enabled, whatever the configured rate, the
levels `error`, `warn`, `info`, `http` always produce the decision
`shouldLog = true`, `wasSampled = false`, `rate = 1`. -/
theorem claim_C6_never_sampled_levels (config : SamplingConfig) (message : String)
    (level : LogLevel) (hen : config.samplingEnabled = true)
    (hlvl : level ∈ ALWAYS_LOG_LEVELS) :
    shouldSampleLog level message config =
      { shouldLog := true, wasSampled := false, rate := 1 } := by
  have hal : ALWAYS_LOG_LEVELS.contains level = true := by
    fin_cases hlvl <;> decide
  unfold shouldSampleLog
  rw [hen, hal]
  simp only [Bool.not_true, Bool.false_eq_true, if_false, if_true]

/-- Claim C6 witness: at configured rate `0` with sampling enabled, level
`error` still logs. -/
theorem claim_C6_witness :
    (⟨true, 0⟩ : SamplingConfig).samplingEnabled = true ∧
    LogLevel.error ∈ ALWAYS_LOG_LEVELS ∧
    shouldSampleLog .error "m" ⟨true, 0⟩ =
      { shouldLog := true, wasSampled := false, rate := 1 } :=
  ⟨rfl, by simp [ALWAYS_LOG_LEVELS],
    claim_C6_never_sampled_levels ⟨true, 0⟩ "m" .error rfl
      (by simp [ALWAYS_LOG_LEVELS])⟩

/-- Claim C10: the invariant `dropped ≤ sampled ≤ total` holds in the
fresh state, is preserved by `record` for every decision and by `reset`,
and makes the derived drop rate (`dropped / sampled`, `0` when `sampled`
is `0`) lie in `[0,1]`. -/
theorem claim_C10_stats_invariant :
    (SamplingStats.init.dropped ≤ SamplingStats.init.sampled ∧
     SamplingStats.init.sampled ≤ SamplingStats.init.total) ∧
    (∀ (s : SamplingStats) (d : SamplingDecision),
      s.dropped ≤ s.sampled → s.sampled ≤ s.total →
      (s.record d).dropped ≤ (s.record d).sampled ∧
        (s.record d).sampled ≤ (s.record d).total) ∧
    (∀ s : SamplingStats,
      s.reset.dropped ≤ s.reset.sampled ∧ s.reset.sampled ≤ s.reset.total) ∧
    (∀ s : SamplingStats, s.dropped ≤ s.sampled →
      0 ≤ s.dropRate ∧ s.dropRate ≤ 1) := by
  refine ⟨⟨Nat.le_refl 0, Nat.le_refl 0⟩, ?_, ?_, ?_⟩
  · intro s d h1 h2
    unfold SamplingStats.record
    dsimp only
    by_cases hws : d.wasSampled <;> by_cases hsl : d.shouldLog <;>
      simp [hws, hsl] <;> omega
  · intro s
    exact ⟨Nat.le_refl 0, Nat.le_refl 0⟩
  · intro s h1
    unfold SamplingStats.dropRate
    by_cases hs : s.sampled > 0
    · rw [if_pos hs]
      constructor
      · positivity
      · rw [div_le_one (by exact_mod_cast hs)]
        exact_mod_cast h1
    · rw [if_neg hs]
      norm_num

/-- Claim C10 witness: the record step applied to the fresh state with a
sampled, dropped decision. -/
theorem claim_C10_witness :
    SamplingStats.init.dropped ≤ SamplingStats.init.sampled ∧
    SamplingStats.init.sampled ≤ SamplingStats.init.total ∧
    ((SamplingStats.init.record ⟨false, true, 1⟩).dropped ≤
        (SamplingStats.init.record ⟨false, true, 1⟩).sampled ∧
      (SamplingStats.init.record ⟨false, true, 1⟩).sampled ≤
        (SamplingStats.init.record ⟨false, true, 1⟩).total) :=
  ⟨by decide, by decide,
    claim_C10_stats_invariant.2.1 SamplingStats.init ⟨false, true, 1⟩
      (by decide) (by decide)⟩

/-! ## The spread merge, at the level of key lookup -/

theorem lookup_override_map (b : LoggerMetadata) (k : String) :
    ∀ a : LoggerMetadata,
      List.lookup k (a.map fun p =>
        match List.lookup p.1 b with
        | some w => (p.1, w)
        | none => p) =
      match List.lookup k a with
      | some v => some ((List.lookup k b).getD v)
      | none => none := by
  intro a
  induction a with
  | nil => rfl
  | cons p rest ih =>
      obtain ⟨k0, v0⟩ := p
      by_cases hk : k = k0
      · subst hk
        cases hb : List.lookup k b <;>
          simp [List.lookup, List.map, hb, Option.getD]
      · have hbeq : (k == k0) = false := beq_eq_false_iff_ne.mpr hk
        cases hb : List.lookup k0 b <;>
          simp [List.lookup, List.map, hb, hbeq, ih]

theorem lookup_filter_absent (a : LoggerMetadata) (k : String) :
    ∀ b : LoggerMetadata,
      List.lookup k (b.filter fun p => (List.lookup p.1 a).isNone) =
        match List.lookup k a with
        | none => List.lookup k b
        | some _ => none := by
  intro b
  induction b with
  | nil => cases ha : List.lookup k a <;> simp [ha]
  | cons p rest ih =>
      obtain ⟨k0, v0⟩ := p
      by_cases hk : k = k0
      · subst hk
        cases ha : List.lookup k a with
        | none => simp [List.filter_cons, ha, List.lookup, ih]
        | some w => simp [List.filter_cons, ha, List.lookup, ih]
      · have hbeq : (k == k0) = false := beq_eq_false_iff_ne.mpr hk
        cases ha0 : List.lookup k0 a with
        | none =>
            cases ha : List.lookup k a <;>
              simp [List.filter_cons, ha0, ha, List.lookup, hbeq, ih]
        | some w =>
            cases ha : List.lookup k a <;>
              simp [List.filter_cons, ha0, ha, List.lookup, hbeq, ih]

theorem lookup_append_meta (k : String) :
    ∀ x y : LoggerMetadata,
      List.lookup k (x ++ y) =
        match List.lookup k x with
        | some v => some v
        | none => List.lookup k y := by
  intro x y
  induction x with
  | nil => rfl
  | cons p rest ih =>
      obtain ⟨k0, v0⟩ := p
      by_cases hk : k = k0
      · subst hk; simp [List.lookup]
      · have hbeq : (k == k0) = false := beq_eq_false_iff_ne.mpr hk
        simp [List.lookup, hbeq, ih]

/-- The JavaScript spread `\x7b ...a, ...b \x7d`, observed through key
lookup: the call-site map `b` wins on collision, otherwise the stored map
`a` answers. -/
theorem lookup_mergeSpread (a b : LoggerMetadata) (k : String) :
    List.lookup k (mergeSpread a b) =
      (List.lookup k b).orElse (fun _ => List.lookup k a) := by
  unfold mergeSpread
  rw [lookup_append_meta, lookup_override_map]
  cases ha : List.lookup k a <;> cases hb : List.lookup k b <;>
    simp [lookup_filter_absent, ha, hb, Option.getD, Option.orElse]

/-! ## The pipeline claims -/

theorem createSampler_eq (c : SamplingConfig) (level : LogLevel) (msg : String) :
    createSampler c level msg = (shouldSampleLog level msg c).shouldLog := by
  unfold createSampler shouldSampleLog
  cases hc : c.samplingEnabled <;> simp [hc]

/-- Claim C1: the per-call pipeline first asks the sampler; a negative
decision produces no sink call (and, the embedding of the call being a
pure function to the optional sink invocation, no other effect); a
positive decision produces exactly one sink call carrying the given level,
the given message, and the masked spread-merge of the stored metadata with
the call-site metadata, where the call-site map wins on key collision. -/
theorem claim_C1_pipeline (L : WinstonLogger) (level : LogLevel)
    (message : String) (meta : LoggerMetadata) :
    ((shouldSampleLog level message L.config.samplingConfig).shouldLog = false →
      L.logWithMeta level message meta = none) ∧
    ((shouldSampleLog level message L.config.samplingConfig).shouldLog = true →
      L.logWithMeta level message meta =
        some ⟨level, message,
          createMasker L.config.maskConfig (.vobj (mergeSpread L.metadata meta))⟩) ∧
    (∀ k : String, List.lookup k (mergeSpread L.metadata meta) =
      (List.lookup k meta).orElse (fun _ => List.lookup k L.metadata)) := by
  refine ⟨?_, ?_, fun k => lookup_mergeSpread L.metadata meta k⟩
  · intro h
    unfold WinstonLogger.logWithMeta
    rw [createSampler_eq, h]
    rfl
  · intro h
    unfold WinstonLogger.logWithMeta
    rw [createSampler_eq, h]
    rfl

/-- Claim C1 witness: with sampling disabled the decision is positive and
a concrete call produces exactly the masked merged sink record. -/
theorem claim_C1_witness :
    (shouldSampleLog .info "hello" parentLogger.config.samplingConfig).shouldLog = true ∧
    parentLogger.logWithMeta .info "hello" [("user", .vstr "u")] =
      some ⟨.info, "hello",
        createMasker parentLogger.config.maskConfig
          (.vobj (mergeSpread parentLogger.metadata [("user", .vstr "u")]))⟩ :=
  ⟨rfl, (claim_C1_pipeline parentLogger .info "hello" [("user", .vstr "u")]).2.1 rfl⟩

/-- Claim C7: each child is a new pipeline value whose stored metadata is
the spread-merge of the parent metadata with the child argument (child
keys win); a key absent from both the parent and a child's own argument is
absent from that child, whatever the sibling's argument holds; and both
children share the parent configuration.  The parent record itself is
immutable in this embedding; `child` only reads it. -/
theorem claim_C7_child_isolation (L : WinstonLogger) (m1 m2 : LoggerMetadata) :
    (L.child m1).metadata = mergeSpread L.metadata m1 ∧
    (L.child m2).metadata = mergeSpread L.metadata m2 ∧
    (∀ k, List.lookup k (L.child m1).metadata =
      (List.lookup k m1).orElse (fun _ => List.lookup k L.metadata)) ∧
    (∀ k, List.lookup k (L.child m2).metadata =
      (List.lookup k m2).orElse (fun _ => List.lookup k L.metadata)) ∧
    (∀ k, List.lookup k L.metadata = none → List.lookup k m1 = none →
      List.lookup k (L.child m1).metadata = none) ∧
    (∀ k, List.lookup k L.metadata = none → List.lookup k m2 = none →
      List.lookup k (L.child m2).metadata = none) ∧
    (L.child m1).config = L.config ∧ (L.child m2).config = L.config := by
  refine ⟨rfl, rfl, fun k => lookup_mergeSpread L.metadata m1 k,
    fun k => lookup_mergeSpread L.metadata m2 k, ?_, ?_, rfl, rfl⟩
  · intro k h1 h2
    rw [show (L.child m1).metadata = mergeSpread L.metadata m1 from rfl,
      lookup_mergeSpread, h1, h2]
    rfl
  · intro k h1 h2
    rw [show (L.child m2).metadata = mergeSpread L.metadata m2 from rfl,
      lookup_mergeSpread, h1, h2]
    rfl

/-- Claim C7 witness: for `parent.child(a:1)` and `parent.child(a:2)`, a
key present in neither the parent nor the first child's own argument is
absent from the first child. -/
theorem claim_C7_witness :
    List.lookup "x" parentLogger.metadata = none ∧
    List.lookup "x" [("a", Value.vnum 1)] = none ∧
    List.lookup "x" (parentLogger.child [("a", Value.vnum 1)]).metadata = none :=
  ⟨rfl, rfl, (claim_C7_child_isolation parentLogger [("a", .vnum 1)]
    [("a", .vnum 2)]).2.2.2.2.1 "x" rfl rfl⟩

/-! ## Correlation-id claims -/

theorem hex_isHex : ∀ n, n < 16 → isLowerHexDigit (hexDigitChar n) = true := by
  decide

theorem vclass_hex (i : ℕ) (c : Char)
    (hi : ¬(i = 8 ∨ i = 13 ∨ i = 18 ∨ i = 23)) (h14 : i ≠ 14) (h19 : i ≠ 19)
    (hc : isLowerHexDigit c = true) : v4Class i c = true := by
  unfold v4Class
  rw [if_neg hi, if_neg h14, if_neg h19]
  exact hc

theorem version_high : ∀ m, m < 16 → v4Class 14 (hexDigitChar ((m + 64) / 16)) = true := by
  decide

theorem variant_high : ∀ m, m < 64 → v4Class 19 (hexDigitChar ((m + 128) / 16)) = true := by
  decide

/-- Every generated id matches the version-4 UUID pattern, whatever the
random bytes are. -/
theorem matchesV4Pattern_uuidv4 (rnd : Fin 16 → Fin 256) :
    matchesV4Pattern (uuidv4 rnd) = true := by
  have h0 := (rnd 0).isLt
  have h1 := (rnd 1).isLt
  have h2 := (rnd 2).isLt
  have h3 := (rnd 3).isLt
  have h4 := (rnd 4).isLt
  have h5 := (rnd 5).isLt
  have h6 := (rnd 6).isLt
  have h7 := (rnd 7).isLt
  have h8 := (rnd 8).isLt
  have h9 := (rnd 9).isLt
  have h10 := (rnd 10).isLt
  have h11 := (rnd 11).isLt
  have h12 := (rnd 12).isLt
  have h13 := (rnd 13).isLt
  have h14 := (rnd 14).isLt
  have h15 := (rnd 15).isLt
  unfold uuidv4 matchesV4Pattern
  simp only [byteHex, String.toList]
  simp only [List.cons_append, List.nil_append, List.append_assoc]
  simp only [List.length_cons, List.length_nil]
  simp only [List.enum, List.enumFrom, List.all_cons, List.all_nil]
  norm_num
  repeat' apply And.intro
  all_goals first
    | decide
    | (apply version_high; omega)
    | (apply variant_high; omega)
    | (apply vclass_hex <;> first | decide | (apply hex_isHex; omega))

theorem strLength_pos {s : String} (h : s ≠ "") : s.length > 0 := by
  cases s with
  | mk data =>
      cases data with
      | nil => exact absurd rfl h
      | cons c cs => simp [String.length]

/-- Claim C5, counterexample: with the correlation header bound to the
non-empty sequence `[""]`, the empty first element is not returned;
a fresh UUID is generated instead (here with all-zero random bytes). -/
theorem claim_C5_counterexample :
    emptyFirstHeaders CORRELATION_ID_HEADER = some (.harr [""]) ∧
    getCorrelationId emptyFirstHeaders (fun _ => 0) =
      "00000000-0000-4000-8000-000000000000" ∧
    "00000000-0000-4000-8000-000000000000" ≠ "" := by
  exact ⟨rfl, by decide, by decide⟩

/-- Claim C5 (amended): the looked-up header value (lower-case key first,
capitalized fallback) is returned unchanged when it is a non-empty string;
the first element is returned when it is a non-empty sequence whose first
element is itself non-empty; in every other case (absent header, empty
string, empty sequence, or a sequence with an empty first element) a
freshly generated version-4 UUID is returned, and every generated id
matches the v4 pattern. -/
theorem claim_C5_correlation (headers : String → Option HeaderValue)
    (rnd : Fin 16 → Fin 256) :
    (∀ s : String, lookupHeaderValue headers = some (.hstr s) → s ≠ "" →
      getCorrelationId headers rnd = s) ∧
    (∀ (x : String) (l : List String),
      lookupHeaderValue headers = some (.harr (x :: l)) → x ≠ "" →
      getCorrelationId headers rnd = x) ∧
    ((lookupHeaderValue headers = none ∨
      lookupHeaderValue headers = some (.hstr "") ∨
      lookupHeaderValue headers = some (.harr []) ∨
      (∃ l : List String, lookupHeaderValue headers = some (.harr ("" :: l)))) →
      getCorrelationId headers rnd = uuidv4 rnd) ∧
    matchesV4Pattern (uuidv4 rnd) = true := by
  refine ⟨?_, ?_, ?_, matchesV4Pattern_uuidv4 rnd⟩
  · intro s hs hne
    unfold getCorrelationId
    rw [hs]
    show (if s.length > 0 then s else uuidv4 rnd) = s
    rw [if_pos (strLength_pos hne)]
  · intro x l hx hne
    unfold getCorrelationId
    rw [hx]
    show (if x.length > 0 then x else uuidv4 rnd) = x
    rw [if_pos (strLength_pos hne)]
  · intro hcase
    unfold getCorrelationId
    rcases hcase with h | h | h | ⟨l, h⟩
    · rw [h]
    · rw [h]
      show (if ("" : String).length > 0 then "" else uuidv4 rnd) = uuidv4 rnd
      rw [if_neg (by decide)]
    · rw [h]
    · rw [h]
      show (if ("" : String).length > 0 then "" else uuidv4 rnd) = uuidv4 rnd
      rw [if_neg (by decide)]

/-- Claim C5 witness: a client-supplied non-empty string id is passed
through unchanged. -/
theorem claim_C5_witness :
    lookupHeaderValue strHeaders = some (.hstr "abc") ∧ "abc" ≠ "" ∧
    getCorrelationId strHeaders (fun _ => 0) = "abc" :=
  ⟨rfl, by decide,
    (claim_C5_correlation strHeaders (fun _ => 0)).1 "abc" rfl (by decide)⟩

/-! ## Error-parser claims -/

theorem collectFrames_eq_take (maxLines : ℕ) :
    ∀ (lines : List String) (count : ℕ),
      collectFrames maxLines lines count =
        (lines.filterMap parseStackFrame).take (maxLines - count) := by
  intro lines
  induction lines with
  | nil => intro count; rw [collectFrames]; simp
  | cons line rest ih =>
      intro count
      rw [collectFrames]
      by_cases h : count ≥ maxLines
      · rw [if_pos h]
        have hz : maxLines - count = 0 := by omega
        rw [hz]
        simp
      · rw [if_neg h, List.filterMap_cons]
        cases hp : parseStackFrame line with
        | none =>
            simp only [hp]
            exact ih count
        | some frame =>
            simp only [hp]
            rw [ih (count + 1)]
            have hsucc : maxLines - count = (maxLines - (count + 1)) + 1 := by omega
            rw [hsucc, List.take_succ_cons]

/-- Claim C9: parsing an error with stack text discards the first line,
keeps, in original order, exactly the frames of the lines the frame
parser accepts, cut off after `maxLines` extracted frames (skipped lines
do not consume the budget); the result never exceeds `maxLines` frames;
and the frame parser accepts a line exactly when its whitespace-trimmed
form begins with the marker `at `. -/
theorem claim_C9_parse_frames (name message s : String) (cause : Option JSError)
    (maxLines : ℕ) :
    (parseError (.mk name message (some s) cause) maxLines).stack =
      (((splitLines s).drop 1).filterMap parseStackFrame).take maxLines ∧
    (parseError (.mk name message (some s) cause) maxLines).stack.length ≤ maxLines ∧
    (∀ line : String, parseStackFrame line = none ↔
      strStartsWith (strTrim line) "at " = false) := by
  have hstack : (parseError (.mk name message (some s) cause) maxLines).stack =
      (((splitLines s).drop 1).filterMap parseStackFrame).take maxLines := by
    rw [parseError.eq_def]
    simp only [ParsedError.stack]
    rw [collectFrames_eq_take maxLines ((splitLines s).drop 1) 0, Nat.sub_zero]
  refine ⟨hstack, ?_, ?_⟩
  · rw [hstack]
    exact le_trans (List.length_take_le _ _) (le_refl _)
  · intro line
    unfold parseStackFrame
    by_cases h : strStartsWith (strTrim line) "at " = true
    · simp [h]
    · simp [h]

end LoggingKit
